import Mathlib

/-!
Shallow embedding of `src/python/ndar_uploader.py` (Python 2).

Modelling conventions:
* Python strings are `String`; character-level operations are written over
  `List Char` so that they compute by kernel reduction.
* A Python `dict` is an insertion-ordered association list
  (`List (String × α)`) with overwrite-on-insert; `dict[k]` lookups that can
  raise `KeyError` are modelled with `Except Err`.
* Python exceptions (`ValueError` from `int()`, `KeyError`, the
  `Exception(r.reason)` raises, `StopIteration` from `rows.next()`) are the
  constructors of `Err`; any raise aborts the run, matching the program,
  which catches nothing.
* The `requests` HTTP session is modelled as a pure function
  `Service : Request → HttpResp`; each client function returns the list of
  requests it issued together with its `Except Err` result, and sequencing
  concatenates those lists.  `HttpResp.idField` is the `_id` field of the
  JSON response body when the body is a JSON object carrying one.
* `csv.DictReader` with `delimiter='\t'` is modelled on already
  line-split/tab-split input (`TSVFile := List (List String)`); a record row
  is `dict(zip(header, cells))`.  (`DictReader` pads or collects ragged rows
  via `restval`/`restkey`; every row considered here has the header's
  length, where the zip model coincides.)
-/

namespace NdarUploader

/-- Python exceptions that the program can raise. -/
inductive Err where
  | parseError (s : String)
  | keyError (k : String)
  | uploadError (reason : String)
  | stopIteration
deriving Repr, DecidableEq

/-- Python `s.split(sep)` for a single-character separator: never returns
the empty list, and empty chunks are kept (`"".split('/') == ['']`). -/
def splitOn (sep : Char) : List Char → List (List Char)
  | [] => [[]]
  | c :: cs =>
    match splitOn sep cs with
    | [] => [[]]
    | h :: t => if c = sep then [] :: h :: t else (c :: h) :: t

/-- The longest prefix strictly before the first occurrence of `c`. -/
def takeUntilChar (c : Char) : List Char → List Char
  | [] => []
  | x :: xs => if x = c then [] else x :: takeUntilChar c xs

/-- Whitespace stripped by Python `int()` (via `str.strip`); the claims only
use `' '`-free digit strings, where this is exact. -/
def isPySpace (c : Char) : Bool :=
  c = ' ' || c = '\t' || c = '\n' || c = '\r'

def pyStrip (l : List Char) : List Char :=
  ((l.dropWhile isPySpace).reverse.dropWhile isPySpace).reverse

/-- Decimal digit run to a number; `none` when empty or non-digit. -/
def parseDigits : List Char → Option Nat
  | [] => none
  | cs =>
    if cs.all Char.isDigit then
      some (cs.foldl (fun n c => 10 * n + (c.toNat - 48)) 0)
    else none

/-- Python 2 `int(s)`: strip whitespace, optional sign, decimal digits;
`none` models the `ValueError` raise. -/
def pyInt (s : String) : Option Int :=
  match pyStrip s.toList with
  | '-' :: rest => (parseDigits rest).map (fun n => -(n : Int))
  | '+' :: rest => (parseDigits rest).map (fun n => (n : Int))
  | cs => (parseDigits cs).map (fun n => (n : Int))

/-- Python 2 `str.lower()` (ASCII). -/
def lowerStr (s : String) : String :=
  String.mk (s.toList.map Char.toLower)

/-- A Python `dict` with string keys: insertion-ordered association list. -/
abbrev Dict (α : Type) : Type := List (String × α)

/-- `d.get(k)` / `d[k]` lookup. -/
def dictGet {α : Type} : Dict α → String → Option α
  | [], _ => none
  | (k', v) :: d, k => if k' = k then some v else dictGet d k

/-- `d[k] = v`: overwrite in place when the key exists, else append
(insertion order, as an ordered refinement of the Python 2 hash dict;
keys are unique in every dict the program builds, starting from `{}`). -/
def dictInsert {α : Type} : Dict α → String → α → Dict α
  | [], k, v => [(k, v)]
  | (k', v') :: d, k, v =>
    if k' = k then (k, v) :: d else (k', v') :: dictInsert d k v

def dictKeys {α : Type} (d : Dict α) : List String := d.map Prod.fst

/-- A record row produced by `csv.DictReader`: a string-valued dict. -/
abbrev Row : Type := Dict String

/-- `dict(zip(header, cells))` (later duplicate header wins, zip truncates
to the shorter list, as in Python). -/
def dictOfZip (header cells : List String) : Row :=
  (header.zip cells).foldl (fun d p => dictInsert d p.1 p.2) []

/-- A tab-separated file, already split into rows of cells; the first row is
the `csv.DictReader` header. -/
abbrev TSVFile : Type := List (List String)

/-- The `subject` dict built by `scitran_session`. -/
structure Subject where
  sex : String
  age : Int
  code : String
  metadata : Row
deriving Repr, DecidableEq

/-- A session dict; `project` is absent until `main` assigns it. -/
structure Session where
  label : String
  subject : Subject
  project : Option String := none
deriving Repr, DecidableEq

/-- An acquisition dict; `session` is absent until `main` assigns it. -/
structure Acquisition where
  label : String
  metadata : Row
  session : Option String := none
deriving Repr, DecidableEq

structure Project where
  label : String
  group : String
deriving Repr, DecidableEq

/-- `_age_in_seconds(age_in_months)`: `0` on falsy input (`None` or `""`),
else `2629800 * int(age_in_months)`; `int` failure raises. -/
def _age_in_seconds (age_in_months : Option String) : Except Err Int :=
  match age_in_months with
  | none => .ok 0
  | some s =>
    if s = "" then .ok 0
    else
      match pyInt s with
      | some n => .ok (2629800 * n)
      | none => .error (.parseError s)

/-- `scitran_session(ndar_subject)`; field accesses in source order, a
missing key raises `KeyError`. -/
def scitran_session (ndar_subject : Row) : Except Err Session :=
  match dictGet ndar_subject "subjectkey" with
  | none => .error (.keyError "subjectkey")
  | some key =>
    match dictGet ndar_subject "gender" with
    | none => .error (.keyError "gender")
    | some g =>
      match dictGet ndar_subject "interview_age" with
      | none => .error (.keyError "interview_age")
      | some ia =>
        match _age_in_seconds (some ia) with
        | .error e => .error e
        | .ok age =>
          .ok { label := key
                subject :=
                  { sex := lowerStr g, age := age, code := key
                    metadata := ndar_subject }
                project := none }

/-- Label expression of `scitran_acquisition`:
`image_file.split('/')[-1].split('.')[0]`. -/
def acquisitionLabel (image_file : String) : String :=
  String.mk ((splitOn '.' ((splitOn '/' image_file.toList).getLastD [])).headD [])

/-- `scitran_acquisition(ndar_image)`. -/
def scitran_acquisition (ndar_image : Row) : Except Err Acquisition :=
  match dictGet ndar_image "image_file" with
  | none => .error (.keyError "image_file")
  | some f =>
    .ok { label := acquisitionLabel f, metadata := ndar_image, session := none }

/-- Loop body of `generate_sessions`:
`sessions[row['subjectkey']] = scitran_session(row)`. -/
def sessionsLoop (header : List String) :
    List (List String) → Dict Session → Except Err (Dict Session)
  | [], d => .ok d
  | cells :: rest, d =>
    let row := dictOfZip header cells
    match dictGet row "subjectkey" with
    | none => .error (.keyError "subjectkey")
    | some key =>
      match scitran_session row with
      | .error e => .error e
      | .ok s => sessionsLoop header rest (dictInsert d key s)

/-- `generate_sessions(subjects_file)`.  `csv.DictReader` consumes the first
row as the header; the explicit `rows.next()` then consumes AND DISCARDS the
first data row (raising `StopIteration` when the file has at most one row);
the `for` loop processes the remaining rows. -/
def generate_sessions (subjects_file : TSVFile) : Except Err (Dict Session) :=
  match subjects_file with
  | [] => .error .stopIteration
  | [_] => .error .stopIteration
  | header :: _ :: rows => sessionsLoop header rows []

/-- Loop body of `generate_acquisitions`:
`acqs[k] = acqs.get(k, []) + [scitran_acquisition(row)]`. -/
def acqsLoop (header : List String) :
    List (List String) → Dict (List Acquisition) →
      Except Err (Dict (List Acquisition))
  | [], d => .ok d
  | cells :: rest, d =>
    let row := dictOfZip header cells
    match dictGet row "subjectkey" with
    | none => .error (.keyError "subjectkey")
    | some key =>
      match scitran_acquisition row with
      | .error e => .error e
      | .ok a =>
        acqsLoop header rest (dictInsert d key (((dictGet d key).getD []) ++ [a]))

/-- `generate_acquisitions(images_file, sessions)`; the `sessions` argument
is unused by the source too; same header/`rows.next()` behaviour as
`generate_sessions`. -/
def generate_acquisitions (images_file : TSVFile) (_sessions : Dict Session) :
    Except Err (Dict (List Acquisition)) :=
  match images_file with
  | [] => .error .stopIteration
  | [_] => .error .stopIteration
  | header :: _ :: rows => acqsLoop header rows []

/-- `generate_project(project_label, group)`. -/
def generate_project (project_label : String) (group : String) : Project :=
  { label := project_label, group := group }

/-- Python `os.path.basename` on POSIX paths: the part after the last `/`. -/
def pyBasename (p : String) : String :=
  String.mk ((splitOn '/' p.toList).getLastD [])

/-- `generate_tree(folder, group)` with the two files' parsed contents
supplied directly (the source reads them from
`folder/ndar_aggregate.txt` and `folder/image03.txt`). -/
def generate_tree (folder : String) (group : String)
    (subjects_file images_file : TSVFile) :
    Except Err (Project × Dict Session × Dict (List Acquisition)) :=
  let project := generate_project (pyBasename folder) group
  match generate_sessions subjects_file with
  | .error e => .error e
  | .ok sessions_dict =>
    match generate_acquisitions images_file sessions_dict with
    | .error e => .error e
    | .ok acquisitions_dict => .ok (project, sessions_dict, acquisitions_dict)

inductive Method where
  | get
  | post
deriving Repr, DecidableEq

/-- A JSON request body: one of the payload shapes the program sends. -/
inductive Payload where
  | project (p : Project)
  | session (s : Session)
  | acquisition (a : Acquisition)
  | group (id : String)
deriving Repr, DecidableEq

/-- One HTTP request as issued through the `requests` session; `params` are
the fixed query parameters the session attaches to every request. -/
structure Request where
  method : Method
  url : String
  params : List (String × String)
  body : Option Payload
deriving Repr, DecidableEq

/-- An HTTP response as the program observes it: `status_code`, `reason`,
and the `_id` field of the JSON body when present. -/
structure HttpResp where
  status : Nat
  reason : String
  idField : Option String
deriving Repr, DecidableEq

/-- The remote service plus network, as a pure function. -/
abbrev Service : Type := Request → HttpResp

/-- Query parameters set by `initialize_session(user)`:
`{'root': True, 'user': user}`. -/
def sessionParams (user : String) : List (String × String) :=
  [("root", "true"), ("user", user)]

/-- The POST request `create` issues for a container and payload. -/
def postReq (prm : List (String × String)) (base c : String) (p : Payload) :
    Request :=
  { method := .post, url := base ++ "/" ++ c, params := prm, body := some p }

/-- The GET request `get_or_create_group` issues. -/
def getGroupReq (prm : List (String × String)) (base g : String) : Request :=
  { method := .get, url := base ++ "/groups/" ++ g, params := prm, body := none }

/-- The POST request `get_or_create_group` issues on a 404. -/
def postGroupReq (prm : List (String × String)) (base g : String) : Request :=
  { method := .post, url := base ++ "/groups", params := prm
    body := some (.group g) }

/-- `create(session, container_name, base_url, payload)`: one POST; on 200
return the body's `_id`, else raise `Exception(r.reason)`.  Returns the
issued requests alongside the result. -/
def create (svc : Service) (prm : List (String × String))
    (container_name base_url : String) (payload : Payload) :
    List Request × Except Err String :=
  let req := postReq prm base_url container_name payload
  let r := svc req
  if r.status = 200 then
    match r.idField with
    | some i => ([req], .ok i)
    | none => ([req], .error (.keyError "_id"))
  else ([req], .error (.uploadError r.reason))

/-- `get_or_create_group(session, base_url, group)`. -/
def get_or_create_group (svc : Service) (prm : List (String × String))
    (base_url group : String) : List Request × Except Err Unit :=
  let req := getGroupReq prm base_url group
  let r := svc req
  if r.status = 200 then ([req], .ok ())
  else if r.status = 404 then
    let req2 := postGroupReq prm base_url group
    let r2 := svc req2
    if r2.status ≠ 200 then ([req, req2], .error (.uploadError r2.reason))
    else ([req, req2], .ok ())
  else ([req], .error (.uploadError r.reason))

/-- Inner loop of `main`: `for acq in acqs_dict[subj]: acq['session'] =
ses_id; create(session, 'acquisitions', args.url, acq)`.  Returns the
mutated acquisition list, the issued requests, and the result. -/
def uploadAcqs (svc : Service) (prm : List (String × String))
    (base_url ses_id : String) :
    List Acquisition → List Acquisition × List Request × Except Err Unit
  | [] => ([], [], .ok ())
  | acq :: rest =>
    let acq' := { acq with session := some ses_id }
    let (e1, res1) := create svc prm "acquisitions" base_url (.acquisition acq')
    match res1 with
    | .error er => (acq' :: rest, e1, .error er)
    | .ok _ =>
      let (rest', e2, res2) := uploadAcqs svc prm base_url ses_id rest
      (acq' :: rest', e1 ++ e2, res2)

/-- Outer loop of `main` over `sess_dict.iteritems()`: set each session's
`project`, and when `acqs_dict.get(subj)` is truthy (present and non-empty)
create the session then its acquisitions.  Returns the mutated sessions
dict, the mutated acquisitions dict, the issued requests, and the result. -/
def uploadSessions (svc : Service) (prm : List (String × String))
    (base_url proj_id : String) :
    Dict Session → Dict (List Acquisition) →
      Dict Session × Dict (List Acquisition) × List Request × Except Err Unit
  | [], acqs => ([], acqs, [], .ok ())
  | (subj, sess) :: rest, acqs =>
    let sess' := { sess with project := some proj_id }
    match dictGet acqs subj with
    | some (a :: l) =>
      let (e1, res1) := create svc prm "sessions" base_url (.session sess')
      match res1 with
      | .error er => ((subj, sess') :: rest, acqs, e1, .error er)
      | .ok ses_id =>
        let (l', e2, res2) := uploadAcqs svc prm base_url ses_id (a :: l)
        let acqs' := dictInsert acqs subj l'
        match res2 with
        | .error er => ((subj, sess') :: rest, acqs', e1 ++ e2, .error er)
        | .ok _ =>
          let (rest', acqs'', e3, res3) :=
            uploadSessions svc prm base_url proj_id rest acqs'
          ((subj, sess') :: rest', acqs'', e1 ++ e2 ++ e3, res3)
    | _ =>
      let (rest', acqs', e3, res3) :=
        uploadSessions svc prm base_url proj_id rest acqs
      ((subj, sess') :: rest', acqs', e3, res3)

/-- The program's configuration: the three positional CLI arguments, with
the contents of the two input files the folder holds. -/
structure Config where
  url : String
  user : String
  folderpath : String
  subjects_file : TSVFile
  images_file : TSVFile

/-- `main()`: build the tree, ensure the group, create the project, run the
upload loop, print the project id.  Returns the full request trace and
either the printed line or the uncaught exception. -/
def main (svc : Service) (cfg : Config) : List Request × Except Err String :=
  let prm := sessionParams cfg.user
  match generate_tree cfg.folderpath "ndar" cfg.subjects_file cfg.images_file with
  | .error e => ([], .error e)
  | .ok (proj, sess_dict, acqs_dict) =>
    let (t1, res1) := get_or_create_group svc prm cfg.url "ndar"
    match res1 with
    | .error e => (t1, .error e)
    | .ok _ =>
      let (t2, res2) := create svc prm "projects" cfg.url (.project proj)
      match res2 with
      | .error e => (t1 ++ t2, .error e)
      | .ok proj_id =>
        let (_, _, t3, res3) :=
          uploadSessions svc prm cfg.url proj_id sess_dict acqs_dict
        match res3 with
        | .error e => (t1 ++ t2 ++ t3, .error e)
        | .ok _ => (t1 ++ t2 ++ t3, .ok proj_id)

/-- Whether a run result is an uncaught exception. -/
def isErrorResult : Except Err String → Bool
  | .error _ => true
  | .ok _ => false

/-- Whether a request is a session-create or acquisition-create POST for
subject key `k` (a session carries the key as `subject.code`, an
acquisition carries it as its metadata's `subjectkey` field). -/
def isForKey (base k : String) (r : Request) : Bool :=
  match r.body with
  | some (.session s) =>
    r.url == base ++ "/sessions" && s.subject.code == k
  | some (.acquisition a) =>
    r.url == base ++ "/acquisitions" && dictGet a.metadata "subjectkey" == some k
  | _ => false

def joinDots : List (List Char) → List Char
  | [] => []
  | [x] => x
  | x :: xs => x ++ '.' :: joinDots xs

/-- The acquisition label as claim C1 words it: the filename portion of the
path (after the last '/') with exactly one trailing '.extension' suffix
removed when a '.' is present, i.e. the substring up to the LAST '.'. -/
def labelLastDot (path : String) : String :=
  let fn := (splitOn '/' path.toList).getLastD []
  match splitOn '.' fn with
  | [] => String.mk fn
  | [_] => String.mk fn
  | parts => String.mk (joinDots parts.dropLast)

/-- The acquisition label as the amended claim words it: the filename
portion of the path (after the last '/') truncated strictly before its
FIRST '.', so every dot-suffix is removed. -/
def labelFirstDot (path : String) : String :=
  String.mk (takeUntilChar '.' ((splitOn '/' path.toList).getLastD []))

/-- The mock service of claim C3: 404 to every GET, 200 to every POST with
an `_id` depending on the collection. -/
def mockService : Service := fun req =>
  if req.method = .get then { status := 404, reason := "Not Found", idField := none }
  else if req.url = "http://x/groups" then { status := 200, reason := "OK", idField := some "g1" }
  else if req.url = "http://x/projects" then { status := 200, reason := "OK", idField := some "p1" }
  else if req.url = "http://x/sessions" then { status := 200, reason := "OK", idField := some "s1" }
  else { status := 200, reason := "OK", idField := some "a1" }

/-- Claim C3's inputs exactly as stated: each file is its header row plus
one data row. -/
def cfgStated : Config :=
  { url := "http://x"
    user := "u"
    folderpath := "/data/import"
    subjects_file := [["subjectkey", "gender", "interview_age"], ["S1", "M", "24"]]
    images_file := [["subjectkey", "image_file"], ["S1", "/data/S1/scan_01.nii"]] }

/-- Claim C3's inputs amended: a filler row (NDAR's description row, which
the program discards via `rows.next()`) inserted after each header. -/
def cfgFiller : Config :=
  { url := "http://x"
    user := "u"
    folderpath := "/data/import"
    subjects_file :=
      [["subjectkey", "gender", "interview_age"], ["--", "--", "--"], ["S1", "M", "24"]]
    images_file :=
      [["subjectkey", "image_file"], ["--", "--"], ["S1", "/data/S1/scan_01.nii"]] }

/-! ### Helper lemmas: strings, dicts, tree-builder loops -/

theorem strAppend_data (a b : String) : (a ++ b).data = a.data ++ b.data := by
  cases a
  cases b
  rfl

theorem strAppend_assoc (a b c : String) : a ++ b ++ c = a ++ (b ++ c) := by
  apply String.ext
  simp only [strAppend_data, List.append_assoc]

theorem strAppend_right_ne (s : String) {a b : String} (h : a ≠ b) :
    s ++ a ≠ s ++ b := by
  intro he
  apply h
  apply String.ext
  have hd := congrArg String.data he
  simp only [strAppend_data] at hd
  exact List.append_cancel_left hd

theorem splitOn_ne_nil (sep : Char) (l : List Char) : splitOn sep l ≠ [] := by
  cases l with
  | nil => simp [splitOn]
  | cons c cs =>
    simp only [splitOn]
    cases h : splitOn sep cs with
    | nil => simp
    | cons hd tl => by_cases hc : c = sep <;> simp [hc]

theorem headD_splitOn (sep : Char) (l : List Char) :
    (splitOn sep l).headD [] = takeUntilChar sep l := by
  induction l with
  | nil => rfl
  | cons c cs ih =>
    simp only [splitOn, takeUntilChar]
    cases h : splitOn sep cs with
    | nil => exact absurd h (splitOn_ne_nil sep cs)
    | cons hd tl =>
      by_cases hc : c = sep
      · simp [hc]
      · simp only [hc, if_false]
        rw [← ih, h]
        simp

theorem dictGet_insert_self {α : Type} (d : Dict α) (k : String) (v : α) :
    dictGet (dictInsert d k v) k = some v := by
  induction d with
  | nil => simp [dictInsert, dictGet]
  | cons p d ih =>
    obtain ⟨k', v'⟩ := p
    by_cases h : k' = k <;> simp [dictInsert, dictGet, h, ih]

theorem dictGet_insert_ne {α : Type} (d : Dict α) (k k' : String) (v : α)
    (h : k' ≠ k) : dictGet (dictInsert d k v) k' = dictGet d k' := by
  induction d with
  | nil => simp [dictInsert, dictGet, Ne.symm h]
  | cons p d ih =>
    obtain ⟨k1, v1⟩ := p
    by_cases h1 : k1 = k
    · subst h1
      simp [dictInsert, dictGet, Ne.symm h]
    · simp [dictInsert, dictGet, h1, ih]

theorem dictGet_isSome_insert {α : Type} (d : Dict α) (k k' : String) (v : α)
    (h : (dictGet d k').isSome) : (dictGet (dictInsert d k v) k').isSome := by
  by_cases he : k' = k
  · subst he
    simp [dictGet_insert_self]
  · rw [dictGet_insert_ne d k k' v he]
    exact h

theorem dictKeys_dictInsert {α : Type} (d : Dict α) (k : String) (v : α) :
    dictKeys (dictInsert d k v) =
      if k ∈ dictKeys d then dictKeys d else dictKeys d ++ [k] := by
  induction d with
  | nil => simp [dictInsert, dictKeys]
  | cons p d ih =>
    obtain ⟨k1, v1⟩ := p
    by_cases h1 : k1 = k
    · subst h1
      simp [dictInsert, dictKeys]
    · have hkk1 : ¬k = k1 := fun he => h1 he.symm
      simp only [dictInsert, if_neg h1, dictKeys, List.map_cons] at *
      rw [ih]
      by_cases h2 : k ∈ List.map Prod.fst d
      · simp [h2, hkk1, List.mem_cons]
      · simp [h2, hkk1, List.mem_cons]

theorem nodup_dictKeys_insert {α : Type} (d : Dict α) (k : String) (v : α)
    (h : (dictKeys d).Nodup) : (dictKeys (dictInsert d k v)).Nodup := by
  rw [dictKeys_dictInsert]
  by_cases h2 : k ∈ dictKeys d
  · simpa [h2] using h
  · simp only [h2, if_false]
    simp [List.nodup_append, h, h2]

theorem sessionsLoop_cons_ok (header c : List String)
    (rest : List (List String)) (d d' : Dict Session)
    (h : sessionsLoop header (c :: rest) d = .ok d') :
    ∃ key s, dictGet (dictOfZip header c) "subjectkey" = some key ∧
      scitran_session (dictOfZip header c) = .ok s ∧
      sessionsLoop header rest (dictInsert d key s) = .ok d' := by
  simp only [sessionsLoop] at h
  cases hkey : dictGet (dictOfZip header c) "subjectkey" with
  | none =>
    simp only [hkey] at h
    exact Except.noConfusion h
  | some key =>
    simp only [hkey] at h
    cases hs : scitran_session (dictOfZip header c) with
    | error e =>
      simp only [hs] at h
      exact Except.noConfusion h
    | ok s =>
      simp only [hs] at h
      exact ⟨key, s, rfl, rfl, h⟩

theorem sessionsLoop_isSome (header : List String) :
    ∀ (rows : List (List String)) (d d' : Dict Session) (k : String),
      sessionsLoop header rows d = .ok d' →
      (dictGet d k).isSome → (dictGet d' k).isSome := by
  intro rows
  induction rows with
  | nil =>
    intro d d' k h hs
    simp only [sessionsLoop] at h
    cases h
    exact hs
  | cons cells rest ih =>
    intro d d' k h hs
    obtain ⟨key, s, _, _, h2⟩ := sessionsLoop_cons_ok header cells rest d d' h
    exact ih _ _ k h2 (dictGet_isSome_insert _ _ _ _ hs)

theorem sessionsLoop_mem (header : List String) :
    ∀ (rows : List (List String)) (d d' : Dict Session),
      sessionsLoop header rows d = .ok d' →
      ∀ cells ∈ rows, ∀ k,
        dictGet (dictOfZip header cells) "subjectkey" = some k →
        (dictGet d' k).isSome := by
  intro rows
  induction rows with
  | nil => simp
  | cons c rest ih =>
    intro d d' h cells hmem k hk
    obtain ⟨key, s, hkey, hs, h2⟩ := sessionsLoop_cons_ok header c rest d d' h
    rcases List.mem_cons.mp hmem with rfl | hmem2
    · rw [hk] at hkey
      cases hkey
      exact sessionsLoop_isSome header rest _ _ k h2 (by simp [dictGet_insert_self])
    · exact ih _ _ h2 cells hmem2 k hk

theorem sessionsLoop_append (header : List String) :
    ∀ (xs ys : List (List String)) (d : Dict Session),
      sessionsLoop header (xs ++ ys) d =
        match sessionsLoop header xs d with
        | .ok d' => sessionsLoop header ys d'
        | .error e => .error e := by
  intro xs
  induction xs with
  | nil => intro ys d; rfl
  | cons c rest ih =>
    intro ys d
    simp only [List.cons_append, sessionsLoop]
    cases hk : dictGet (dictOfZip header c) "subjectkey" with
    | none => rfl
    | some key =>
      cases hs : scitran_session (dictOfZip header c) with
      | error e => rfl
      | ok s => exact ih ys (dictInsert d key s)

theorem sessionsLoop_skip (header : List String) :
    ∀ (rows : List (List String)) (d d' : Dict Session) (k : String),
      (∀ c ∈ rows, dictGet (dictOfZip header c) "subjectkey" ≠ some k) →
      sessionsLoop header rows d = .ok d' →
      dictGet d' k = dictGet d k := by
  intro rows
  induction rows with
  | nil =>
    intro d d' k _ h
    simp only [sessionsLoop] at h
    cases h
    rfl
  | cons c rest ih =>
    intro d d' k hne h
    obtain ⟨key, s, hkey, hs, h2⟩ := sessionsLoop_cons_ok header c rest d d' h
    have hkne : k ≠ key := by
      intro he
      exact hne c (List.mem_cons_self c rest) (he ▸ hkey)
    rw [ih _ _ k (fun c2 hm => hne c2 (List.mem_cons_of_mem c hm)) h2]
    exact dictGet_insert_ne _ _ _ _ hkne

theorem sessionsLoop_nodup (header : List String) :
    ∀ (rows : List (List String)) (d d' : Dict Session),
      (dictKeys d).Nodup → sessionsLoop header rows d = .ok d' →
      (dictKeys d').Nodup := by
  intro rows
  induction rows with
  | nil =>
    intro d d' hn h
    simp only [sessionsLoop] at h
    cases h
    exact hn
  | cons c rest ih =>
    intro d d' hn h
    obtain ⟨key, s, _, _, h2⟩ := sessionsLoop_cons_ok header c rest d d' h
    exact ih _ _ (nodup_dictKeys_insert _ _ _ hn) h2

theorem acqsLoop_cons_ok (header c : List String)
    (rest : List (List String)) (d d' : Dict (List Acquisition))
    (h : acqsLoop header (c :: rest) d = .ok d') :
    ∃ key a, dictGet (dictOfZip header c) "subjectkey" = some key ∧
      scitran_acquisition (dictOfZip header c) = .ok a ∧
      acqsLoop header rest
        (dictInsert d key (((dictGet d key).getD []) ++ [a])) = .ok d' := by
  simp only [acqsLoop] at h
  cases hkey : dictGet (dictOfZip header c) "subjectkey" with
  | none =>
    simp only [hkey] at h
    exact Except.noConfusion h
  | some key =>
    simp only [hkey] at h
    cases ha : scitran_acquisition (dictOfZip header c) with
    | error e =>
      simp only [ha] at h
      exact Except.noConfusion h
    | ok a =>
      simp only [ha] at h
      exact ⟨key, a, rfl, rfl, h⟩

theorem acqsLoop_isSome (header : List String) :
    ∀ (rows : List (List String)) (d d' : Dict (List Acquisition)) (k : String),
      acqsLoop header rows d = .ok d' →
      (dictGet d k).isSome → (dictGet d' k).isSome := by
  intro rows
  induction rows with
  | nil =>
    intro d d' k h hs
    simp only [acqsLoop] at h
    cases h
    exact hs
  | cons cells rest ih =>
    intro d d' k h hs
    obtain ⟨key, a, _, _, h2⟩ := acqsLoop_cons_ok header cells rest d d' h
    exact ih _ _ k h2 (dictGet_isSome_insert _ _ _ _ hs)

theorem acqsLoop_mem (header : List String) :
    ∀ (rows : List (List String)) (d d' : Dict (List Acquisition)),
      acqsLoop header rows d = .ok d' →
      ∀ cells ∈ rows, ∀ k,
        dictGet (dictOfZip header cells) "subjectkey" = some k →
        (dictGet d' k).isSome := by
  intro rows
  induction rows with
  | nil => simp
  | cons c rest ih =>
    intro d d' h cells hmem k hk
    obtain ⟨key, a, hkey, ha, h2⟩ := acqsLoop_cons_ok header c rest d d' h
    rcases List.mem_cons.mp hmem with rfl | hmem2
    · rw [hk] at hkey
      cases hkey
      exact acqsLoop_isSome header rest _ _ k h2 (by simp [dictGet_insert_self])
    · exact ih _ _ h2 cells hmem2 k hk

/-! ### Helper lemmas: upload client and loop -/

theorem urlProjects (base : String) :
    base ++ "/" ++ "projects" = base ++ "/projects" := by
  rw [strAppend_assoc]
  exact congrArg (fun t => base ++ t) (by decide)

theorem urlSessions (base : String) :
    base ++ "/" ++ "sessions" = base ++ "/sessions" := by
  rw [strAppend_assoc]
  exact congrArg (fun t => base ++ t) (by decide)

theorem urlAcquisitions (base : String) :
    base ++ "/" ++ "acquisitions" = base ++ "/acquisitions" := by
  rw [strAppend_assoc]
  exact congrArg (fun t => base ++ t) (by decide)

theorem create_fst (svc : Service) (prm : List (String × String))
    (c base : String) (p : Payload) :
    (create svc prm c base p).1 = [postReq prm base c p] := by
  simp only [create]
  split
  · split <;> rfl
  · rfl

theorem create_not200 (svc : Service) (prm : List (String × String))
    (c base : String) (p : Payload)
    (h : (svc (postReq prm base c p)).status ≠ 200) :
    create svc prm c base p =
      ([postReq prm base c p],
        .error (.uploadError (svc (postReq prm base c p)).reason)) := by
  simp [create, h]

theorem create_ok_iff (svc : Service) (prm : List (String × String))
    (c base : String) (p : Payload) (tr : List Request) (i : String) :
    create svc prm c base p = (tr, .ok i) ↔
      tr = [postReq prm base c p] ∧
      (svc (postReq prm base c p)).status = 200 ∧
      (svc (postReq prm base c p)).idField = some i := by
  simp only [create]
  by_cases h : (svc (postReq prm base c p)).status = 200
  · simp only [h, if_true]
    cases hid : (svc (postReq prm base c p)).idField with
    | some j => simp [Prod.ext_iff, eq_comm]
    | none => simp [Prod.ext_iff]
  · simp [h, Prod.ext_iff]

theorem uploadAcqs_ok (svc : Service) (prm : List (String × String))
    (base sid : String) :
    ∀ (l l' : List Acquisition) (tr : List Request),
      uploadAcqs svc prm base sid l = (l', tr, .ok ()) →
      l' = l.map (fun a => { a with session := some sid }) ∧
      tr = l.map (fun a => postReq prm base "acquisitions"
            (.acquisition { a with session := some sid })) := by
  intro l
  induction l with
  | nil =>
    intro l' tr h
    simp only [uploadAcqs, Prod.mk.injEq] at h
    obtain ⟨h1, h2, -⟩ := h
    subst h1
    subst h2
    exact ⟨rfl, rfl⟩
  | cons a rest ih =>
    intro l' tr h
    simp only [uploadAcqs] at h
    rcases hc : create svc prm "acquisitions" base
        (.acquisition { a with session := some sid }) with ⟨e1, res1⟩
    simp only [hc] at h
    cases res1 with
    | error er => simp at h
    | ok j =>
      rcases hrest : uploadAcqs svc prm base sid rest with ⟨rest', e2, res2⟩
      simp only [hrest] at h
      simp only [Prod.mk.injEq] at h
      obtain ⟨h1, h2, h3⟩ := h
      subst h1
      subst h2
      obtain ⟨ihl, iht⟩ := ih rest' e2 (by rw [hrest, h3])
      have he1 : e1 = [postReq prm base "acquisitions"
          (.acquisition { a with session := some sid })] := by
        have := create_fst svc prm "acquisitions" base
          (.acquisition { a with session := some sid })
        rw [hc] at this
        exact this
      subst he1
      simp [ihl, iht]

theorem map_session_session (l : List Acquisition) (s1 s2 : Option String) :
    (l.map (fun a => { a with session := s1 })).map
        (fun a => { a with session := s2 }) =
      l.map (fun a => { a with session := s2 }) := by
  rw [List.map_map]
  rfl

theorem isForKey_session (base k : String) (prm : List (String × String))
    (s : Session) :
    isForKey base k (postReq prm base "sessions" (.session s)) =
      (s.subject.code == k) := by
  simp [isForKey, postReq, urlSessions]

theorem isForKey_acquisition (base k : String) (prm : List (String × String))
    (a : Acquisition) :
    isForKey base k (postReq prm base "acquisitions" (.acquisition a)) =
      (dictGet a.metadata "subjectkey" == some k) := by
  simp [isForKey, postReq, urlAcquisitions]

theorem uploadAcqs_trace_shape (svc : Service) (prm : List (String × String))
    (base sid : String) :
    ∀ l : List Acquisition, ∀ r ∈ (uploadAcqs svc prm base sid l).2.1,
      ∃ x ∈ l, r = postReq prm base "acquisitions"
        (.acquisition { x with session := some sid }) := by
  intro l
  induction l with
  | nil => simp [uploadAcqs]
  | cons a rest ih =>
    intro r hr
    simp only [uploadAcqs] at hr
    rcases hc : create svc prm "acquisitions" base
        (.acquisition { a with session := some sid }) with ⟨e1, res1⟩
    have he1 : e1 = [postReq prm base "acquisitions"
        (.acquisition { a with session := some sid })] := by
      have h2 := create_fst svc prm "acquisitions" base
        (.acquisition { a with session := some sid })
      rw [hc] at h2
      exact h2
    simp only [hc] at hr
    cases res1 with
    | error er =>
      simp only [he1] at hr
      simp at hr
      exact ⟨a, by simp, hr⟩
    | ok j =>
      rcases hrest : uploadAcqs svc prm base sid rest with ⟨rest', e2, res2⟩
      simp only [hrest] at hr
      simp only [he1] at hr
      simp at hr
      rcases hr with hr | hr
      · exact ⟨a, by simp, hr⟩
      · have h3 := ih r
        rw [hrest] at h3
        obtain ⟨x, hx, hxr⟩ := h3 hr
        exact ⟨x, by simp [hx], hxr⟩

theorem group_trace_urls (svc : Service) (prm : List (String × String))
    (base g : String) :
    ∀ r ∈ (get_or_create_group svc prm base g).1,
      r.url = base ++ "/groups/" ++ g ∨ r.url = base ++ "/groups" := by
  intro r hr
  simp only [get_or_create_group] at hr
  split at hr
  · simp at hr
    subst hr
    left
    rfl
  · split at hr
    · split at hr
      · simp at hr
        rcases hr with hr | hr
        · subst hr; left; rfl
        · subst hr; right; rfl
      · simp at hr
        rcases hr with hr | hr
        · subst hr; left; rfl
        · subst hr; right; rfl
    · simp at hr
      subst hr
      left
      rfl

theorem uploadSessions_scope (svc : Service) (prm : List (String × String))
    (base pid : String) :
    ∀ (entries : Dict Session) (acqs : Dict (List Acquisition)),
      (∀ q ∈ entries, q.2.subject.code = q.1) →
      (∀ k l, dictGet acqs k = some l →
        ∀ x ∈ l, dictGet x.metadata "subjectkey" = some k) →
      ∀ r ∈ (uploadSessions svc prm base pid entries acqs).2.2.1, ∀ k,
        isForKey base k r = true → k ∈ dictKeys entries := by
  intro entries
  induction entries with
  | nil =>
    intro acqs _ _ r hr
    simp [uploadSessions] at hr
  | cons q rest ih =>
    obtain ⟨subj, sess⟩ := q
    intro acqs hcode hmeta r hr k hk
    have hcodeT : ∀ q ∈ rest, q.2.subject.code = q.1 :=
      fun q hq => hcode q (List.mem_cons_of_mem _ hq)
    simp only [uploadSessions] at hr
    have hmemhead : k = subj → k ∈ dictKeys ((subj, sess) :: rest) := by
      intro he
      simp [dictKeys, he]
    have hmemtail : k ∈ dictKeys rest → k ∈ dictKeys ((subj, sess) :: rest) := by
      intro hm
      simp only [dictKeys, List.map_cons] at hm ⊢
      exact List.mem_cons_of_mem _ hm
    cases hacq : dictGet acqs subj with
    | none =>
      simp only [hacq] at hr
      rcases hrec : uploadSessions svc prm base pid rest acqs
        with ⟨rest', acqs', e3, res3⟩
      simp only [hrec] at hr
      have h3 := ih acqs hcodeT hmeta r ?_ k hk
      · exact hmemtail h3
      · rw [hrec]
        exact hr
    | some l0 =>
      cases l0 with
      | nil =>
        simp only [hacq] at hr
        rcases hrec : uploadSessions svc prm base pid rest acqs
          with ⟨rest', acqs', e3, res3⟩
        simp only [hrec] at hr
        have h3 := ih acqs hcodeT hmeta r ?_ k hk
        · exact hmemtail h3
        · rw [hrec]
          exact hr
      | cons a l =>
        simp only [hacq] at hr
        rcases hc : create svc prm "sessions" base
            (.session { sess with project := some pid }) with ⟨e1, res1⟩
        have he1 : e1 = [postReq prm base "sessions"
            (.session { sess with project := some pid })] := by
          have h2 := create_fst svc prm "sessions" base
            (.session { sess with project := some pid })
          rw [hc] at h2
          exact h2
        simp only [hc] at hr
        have hheadreq : r = postReq prm base "sessions"
            (.session { sess with project := some pid }) → k = subj := by
          intro hreq
          rw [hreq, isForKey_session] at hk
          have : sess.subject.code = k := by
            have h4 : ({ sess with project := some pid } : Session).subject.code = k :=
              eq_of_beq hk
            exact h4
          rw [← this]
          exact hcode (subj, sess) (List.mem_cons_self _ _)
        have hacqreq : ∀ sid2, (∃ x ∈ a :: l, r = postReq prm base "acquisitions"
            (.acquisition { x with session := some sid2 })) → k = subj := by
          intro sid2 hex
          obtain ⟨x, hx, hreq⟩ := hex
          rw [hreq, isForKey_acquisition] at hk
          have h5 : dictGet x.metadata "subjectkey" = some subj :=
            hmeta subj (a :: l) hacq x hx
          have h6 : (dictGet ({ x with session := some sid2 } :
              Acquisition).metadata "subjectkey" = some k) := by
            have := eq_of_beq hk
            exact this
          have h7 : dictGet x.metadata "subjectkey" = some k := h6
          rw [h5] at h7
          exact (Option.some.injEq _ _ ▸ h7).symm ▸ rfl
        cases res1 with
        | error er =>
          simp only [he1] at hr
          simp at hr
          exact hmemhead (hheadreq hr)
        | ok sid =>
          rcases hup : uploadAcqs svc prm base sid (a :: l)
            with ⟨l2, e2, res2⟩
          simp only [hup] at hr
          cases res2 with
          | error er =>
            simp only [he1] at hr
            simp at hr
            rcases hr with hr | hr
            · exact hmemhead (hheadreq hr)
            · have h8 := uploadAcqs_trace_shape svc prm base sid (a :: l) r
              rw [hup] at h8
              exact hmemhead (hacqreq sid (h8 hr))
          | ok u =>
            cases u
            rcases hrec : uploadSessions svc prm base pid rest
                (dictInsert acqs subj l2) with ⟨rest', acqs'', e3, res3⟩
            simp only [hrec] at hr
            simp only [he1] at hr
            simp at hr
            rcases hr with hr | hr | hr
            · exact hmemhead (hheadreq hr)
            · have h8 := uploadAcqs_trace_shape svc prm base sid (a :: l) r
              rw [hup] at h8
              exact hmemhead (hacqreq sid (h8 hr))
            · obtain ⟨hl2, -⟩ := uploadAcqs_ok svc prm base sid (a :: l) l2 e2
                (by rw [hup])
              have hmeta' : ∀ k' l', dictGet (dictInsert acqs subj l2) k' = some l' →
                  ∀ x ∈ l', dictGet x.metadata "subjectkey" = some k' := by
                intro k' l' hget x hx
                by_cases hks : k' = subj
                · subst hks
                  rw [dictGet_insert_self] at hget
                  cases hget
                  subst hl2
                  simp only [List.mem_map] at hx
                  obtain ⟨y, hy, hyx⟩ := hx
                  subst hyx
                  exact hmeta k' (a :: l) hacq y hy
                · rw [dictGet_insert_ne _ _ _ _ hks] at hget
                  exact hmeta k' l' hget x hx
              have h3 := ih (dictInsert acqs subj l2) hcodeT hmeta' r ?_ k hk
              · exact hmemtail h3
              · rw [hrec]
                exact hr

/-! ### Claim theorems -/

/-- C5: `_age_in_seconds` returns `2629800 * int(m)` for every non-empty
month string `m` that parses as an integer, `0` for the empty string and
for an absent (`None`) input, and raises a ParseError for a non-empty input
that is not a valid integer. -/
theorem C5_age_in_seconds :
    (∀ (s : String) (n : Int), s ≠ "" → pyInt s = some n →
        _age_in_seconds (some s) = .ok (2629800 * n))
    ∧ _age_in_seconds (some "") = .ok 0
    ∧ _age_in_seconds none = .ok 0
    ∧ (∀ s : String, s ≠ "" → pyInt s = none →
        _age_in_seconds (some s) = .error (.parseError s)) := by
  refine ⟨?_, rfl, rfl, ?_⟩
  · intro s n hne hp
    simp [_age_in_seconds, hne, hp]
  · intro s hne hp
    simp [_age_in_seconds, hne, hp]

theorem C5_age_in_seconds_witness :
    _age_in_seconds (some "24") = .ok (2629800 * 24) :=
  C5_age_in_seconds.1 "24" 24 (by decide) (by decide)

/-- C8: `create` — on a 200 response it returns the response body's `_id`
after exactly one POST of the payload to `{base}/{collection}`; on any
non-200 status it raises an UploadError carrying the HTTP reason phrase,
after that same single POST (no retry) and returning no identifier. -/
theorem C8_create (svc : Service) (prm : List (String × String))
    (c base : String) (p : Payload) :
    ((svc (postReq prm base c p)).status = 200 →
      ∀ i, (svc (postReq prm base c p)).idField = some i →
        create svc prm c base p = ([postReq prm base c p], .ok i))
    ∧ ((svc (postReq prm base c p)).status ≠ 200 →
        create svc prm c base p =
          ([postReq prm base c p],
            .error (.uploadError (svc (postReq prm base c p)).reason))) := by
  constructor
  · intro h i hi
    simp only [postReq] at h hi
    simp [create, postReq, h, hi]
  · intro h
    simp only [postReq] at h
    simp [create, postReq, h]

theorem C8_create_witness :
    create (fun _ => { status := 200, reason := "OK", idField := some "x1" })
      [] "projects" "http://x" (.project { label := "l", group := "g" }) =
      ([postReq [] "http://x" "projects" (.project { label := "l", group := "g" })],
        .ok "x1") :=
  (C8_create _ _ _ _ _).1 rfl "x1" rfl

/-- C7: `get_or_create_group` — a 200 GET means exactly one GET and zero
POSTs; a 404 GET means that GET followed by exactly one POST of
`{_id: group}` to `{base}/groups`, which raises an UploadError carrying the
POST's reason when non-200; any other GET status raises an UploadError
carrying the GET's reason after the single GET. -/
theorem C7_get_or_create_group (svc : Service) (prm : List (String × String))
    (base g : String) :
    ((svc (getGroupReq prm base g)).status = 200 →
      get_or_create_group svc prm base g = ([getGroupReq prm base g], .ok ()))
    ∧ ((svc (getGroupReq prm base g)).status = 404 →
        (svc (postGroupReq prm base g)).status = 200 →
        get_or_create_group svc prm base g =
          ([getGroupReq prm base g, postGroupReq prm base g], .ok ()))
    ∧ ((svc (getGroupReq prm base g)).status = 404 →
        (svc (postGroupReq prm base g)).status ≠ 200 →
        get_or_create_group svc prm base g =
          ([getGroupReq prm base g, postGroupReq prm base g],
            .error (.uploadError (svc (postGroupReq prm base g)).reason)))
    ∧ ((svc (getGroupReq prm base g)).status ≠ 200 →
        (svc (getGroupReq prm base g)).status ≠ 404 →
        get_or_create_group svc prm base g =
          ([getGroupReq prm base g],
            .error (.uploadError (svc (getGroupReq prm base g)).reason))) := by
  refine ⟨fun h1 => ?_, fun h1 h2 => ?_, fun h1 h2 => ?_, fun h1 h2 => ?_⟩
  · simp only [getGroupReq] at h1
    simp [get_or_create_group, getGroupReq, h1]
  · simp only [getGroupReq] at h1
    simp only [postGroupReq] at h2
    simp [get_or_create_group, getGroupReq, postGroupReq, h1, h2]
  · simp only [getGroupReq] at h1
    simp only [postGroupReq] at h2
    simp [get_or_create_group, getGroupReq, postGroupReq, h1, h2]
  · simp only [getGroupReq] at h1 h2
    simp [get_or_create_group, getGroupReq, postGroupReq, h1, h2]

theorem C7_get_or_create_group_witness :
    get_or_create_group
      (fun r => if r.method = .get
        then { status := 404, reason := "Not Found", idField := none }
        else { status := 200, reason := "OK", idField := some "g1" })
      [] "http://x" "ndar" =
      ([getGroupReq [] "http://x" "ndar", postGroupReq [] "http://x" "ndar"],
        .ok ()) :=
  (C7_get_or_create_group _ _ _ _).2.1 rfl rfl

/-- C1 counterexample: for `image_file` `/data/S1/scan.nii.gz` the code's
label is `scan` — everything from the FIRST dot on is stripped — while the
claim's up-to-the-last-dot reading demands `scan.nii`. -/
theorem C1_counterexample :
    scitran_acquisition [("image_file", "/data/S1/scan.nii.gz")] =
      .ok { label := "scan"
            metadata := [("image_file", "/data/S1/scan.nii.gz")]
            session := none }
    ∧ labelLastDot "/data/S1/scan.nii.gz" = "scan.nii"
    ∧ ("scan" : String) ≠ "scan.nii" := by
  refine ⟨rfl, by decide, by decide⟩

/-- C1 amended: for every image row, the acquisition label equals the
filename portion of `image_file` (after the last '/') truncated strictly
before its FIRST '.', so every dot-suffix is removed — a double extension
such as `.nii.gz` is stripped entirely; a '.'-free filename is kept whole. -/
theorem C1_acquisition_label (r : Row) (s : String)
    (h : dictGet r "image_file" = some s) :
    scitran_acquisition r =
      .ok { label := labelFirstDot s, metadata := r, session := none } := by
  simp only [scitran_acquisition, h, acquisitionLabel, labelFirstDot, headD_splitOn]

theorem C1_acquisition_label_witness :
    scitran_acquisition [("image_file", "/data/S1/scan.nii.gz")] =
      .ok { label := labelFirstDot "/data/S1/scan.nii.gz"
            metadata := [("image_file", "/data/S1/scan.nii.gz")]
            session := none } :=
  C1_acquisition_label _ "/data/S1/scan.nii.gz" (by decide)

/-- C2 counterexample: a subjects file holding a header row plus exactly
one data row yields an EMPTY sessions mapping — the data row's subject key
`S1` does not appear, though the claim requires it to. -/
theorem C2_counterexample :
    generate_sessions
        [["subjectkey", "gender", "interview_age"], ["S1", "M", "24"]] = .ok []
    ∧ dictGet ([] : Dict Session) "S1" = none :=
  ⟨rfl, rfl⟩

/-- C2 amended: both readers treat the first row as the header and DISCARD
the second row (the first data row — in NDAR exports a description row):
the discarded row's content is irrelevant to the result, and every data row
from the third row of the file onward is transformed and recorded, its
subject key appearing in the resulting mapping. -/
theorem C2_row_processing :
    (∀ (header r0 r0' : List String) (rows : List (List String)),
      generate_sessions (header :: r0 :: rows) =
        generate_sessions (header :: r0' :: rows))
    ∧ (∀ (header r0 r0' : List String) (rows : List (List String))
        (sess sess' : Dict Session),
        generate_acquisitions (header :: r0 :: rows) sess =
          generate_acquisitions (header :: r0' :: rows) sess')
    ∧ (∀ (header r0 : List String) (rows : List (List String)) (d : Dict Session),
        generate_sessions (header :: r0 :: rows) = .ok d →
        ∀ cells ∈ rows, ∀ k,
          dictGet (dictOfZip header cells) "subjectkey" = some k →
          (dictGet d k).isSome)
    ∧ (∀ (header r0 : List String) (rows : List (List String))
        (sess : Dict Session) (d : Dict (List Acquisition)),
        generate_acquisitions (header :: r0 :: rows) sess = .ok d →
        ∀ cells ∈ rows, ∀ k,
          dictGet (dictOfZip header cells) "subjectkey" = some k →
          (dictGet d k).isSome) := by
  refine ⟨fun _ _ _ _ => rfl, fun _ _ _ _ _ _ => rfl, ?_, ?_⟩
  · intro header _ rows d h
    exact sessionsLoop_mem header rows [] d h
  · intro header _ rows _ d h
    exact acqsLoop_mem header rows [] d h

theorem C2_row_processing_witness :
    (dictGet
      [("S1",
        { label := "S1"
          subject :=
            { sex := "m", age := 63115200, code := "S1"
              metadata :=
                [("subjectkey", "S1"), ("gender", "M"), ("interview_age", "24")] }
          project := none : Session })] "S1").isSome :=
  C2_row_processing.2.2.1 ["subjectkey", "gender", "interview_age"]
    ["--", "--", "--"] [["S1", "M", "24"]] _ rfl
    ["S1", "M", "24"] (by decide) "S1" (by decide)

/-- C6: when the same subject key occurs in several data rows, the sessions
mapping holds exactly one entry for it, built from the LAST processed row
carrying that key, and the mapping's keys are unique. -/
theorem C6_last_row_wins (header r0 : List String)
    (rows1 rows2 : List (List String)) (cells : List String)
    (k : String) (s : Session) (d : Dict Session)
    (hk : dictGet (dictOfZip header cells) "subjectkey" = some k)
    (hs : scitran_session (dictOfZip header cells) = .ok s)
    (hlast : ∀ c ∈ rows2, dictGet (dictOfZip header c) "subjectkey" ≠ some k)
    (hok : generate_sessions (header :: r0 :: (rows1 ++ cells :: rows2)) = .ok d) :
    dictGet d k = some s ∧ (dictKeys d).Nodup := by
  have hloop : sessionsLoop header (rows1 ++ cells :: rows2) [] = .ok d := hok
  rw [sessionsLoop_append] at hloop
  cases hmid : sessionsLoop header rows1 [] with
  | error e =>
    simp only [hmid] at hloop
    exact Except.noConfusion hloop
  | ok dmid =>
    simp only [hmid] at hloop
    obtain ⟨key, s2, hkey, hs2, h2⟩ :=
      sessionsLoop_cons_ok header cells rows2 dmid d hloop
    rw [hk] at hkey
    cases hkey
    rw [hs] at hs2
    cases hs2
    constructor
    · rw [sessionsLoop_skip header rows2 _ _ k hlast h2]
      exact dictGet_insert_self _ _ _
    · exact sessionsLoop_nodup header (rows1 ++ cells :: rows2) [] d
        (by simp [dictKeys]) hok

theorem C6_last_row_wins_witness :
    dictGet
      [("S1",
        { label := "S1"
          subject :=
            { sex := "m", age := 63115200, code := "S1"
              metadata :=
                [("subjectkey", "S1"), ("gender", "M"), ("interview_age", "24")] }
          project := none : Session })] "S1" =
      some
        { label := "S1"
          subject :=
            { sex := "m", age := 63115200, code := "S1"
              metadata :=
                [("subjectkey", "S1"), ("gender", "M"), ("interview_age", "24")] }
          project := none }
    ∧ (dictKeys
        [("S1",
          { label := "S1"
            subject :=
              { sex := "m", age := 63115200, code := "S1"
                metadata :=
                  [("subjectkey", "S1"), ("gender", "M"), ("interview_age", "24")] }
            project := none : Session })]).Nodup :=
  C6_last_row_wins ["subjectkey", "gender", "interview_age"] ["--", "--", "--"]
    [["S1", "F", "10"]] [] ["S1", "M", "24"] "S1" _ _
    (by decide) rfl (by simp) rfl

/-- C10: on a successful run of the upload loop, EVERY session in the
sessions mapping — including sessions whose subject key has no acquisitions
and which are therefore never uploaded — has its `project` field set to the
created project identifier, and apart from this `project` field (and the
`session` field of uploaded acquisitions, set to the id returned for their
session) every field of every session and acquisition is left exactly as
the tree builder constructed it. -/
theorem C10_upload_frame (svc : Service) (prm : List (String × String))
    (base pid : String) :
    ∀ (entries : Dict Session) (acqs : Dict (List Acquisition))
      (entries2 : Dict Session) (acqs2 : Dict (List Acquisition))
      (tr : List Request),
      uploadSessions svc prm base pid entries acqs = (entries2, acqs2, tr, .ok ()) →
      entries2 = entries.map (fun q => (q.1, { q.2 with project := some pid }))
      ∧ ∀ k, dictGet acqs2 k = dictGet acqs k ∨
          ∃ sid l, dictGet acqs k = some l ∧
            dictGet acqs2 k = some (l.map (fun a => { a with session := some sid })) := by
  intro entries
  induction entries with
  | nil =>
    intro acqs entries2 acqs2 tr h
    simp only [uploadSessions, Prod.mk.injEq] at h
    obtain ⟨h1, h2, -, -⟩ := h
    subst h1
    subst h2
    exact ⟨by simp, fun k => Or.inl rfl⟩
  | cons q rest ih =>
    obtain ⟨subj, sess⟩ := q
    intro acqs entries2 acqs2 tr h
    simp only [uploadSessions] at h
    cases hacq : dictGet acqs subj with
    | none =>
      simp only [hacq] at h
      rcases hrec : uploadSessions svc prm base pid rest acqs
        with ⟨rest', acqs', e3, res3⟩
      simp only [hrec] at h
      simp only [Prod.mk.injEq] at h
      obtain ⟨h1, h2, -, h4⟩ := h
      subst h1
      subst h2
      obtain ⟨ih1, ih2⟩ := ih acqs rest' acqs' e3 (by rw [hrec, h4])
      subst ih1
      exact ⟨by simp, ih2⟩
    | some l0 =>
      cases l0 with
      | nil =>
        simp only [hacq] at h
        rcases hrec : uploadSessions svc prm base pid rest acqs
          with ⟨rest', acqs', e3, res3⟩
        simp only [hrec] at h
        simp only [Prod.mk.injEq] at h
        obtain ⟨h1, h2, -, h4⟩ := h
        subst h1
        subst h2
        obtain ⟨ih1, ih2⟩ := ih acqs rest' acqs' e3 (by rw [hrec, h4])
        subst ih1
        exact ⟨by simp, ih2⟩
      | cons a l =>
        simp only [hacq] at h
        rcases hc : create svc prm "sessions" base
            (.session { sess with project := some pid }) with ⟨e1, res1⟩
        simp only [hc] at h
        cases res1 with
        | error er => simp at h
        | ok sid =>
          rcases hup : uploadAcqs svc prm base sid (a :: l)
            with ⟨l2, e2, res2⟩
          simp only [hup] at h
          cases res2 with
          | error er => simp at h
          | ok u =>
            cases u
            rcases hrec : uploadSessions svc prm base pid rest
                (dictInsert acqs subj l2) with ⟨rest', acqs'', e3, res3⟩
            simp only [hrec] at h
            simp only [Prod.mk.injEq] at h
            obtain ⟨h1, h2, -, h4⟩ := h
            subst h1
            subst h2
            obtain ⟨hl2, -⟩ := uploadAcqs_ok svc prm base sid (a :: l) l2 e2
              (by rw [hup])
            obtain ⟨ih1, ih2⟩ := ih (dictInsert acqs subj l2) rest' acqs'' e3
              (by rw [hrec, h4])
            subst ih1
            refine ⟨by simp, fun k => ?_⟩
            by_cases hks : k = subj
            · subst hks
              rcases ih2 k with h5 | ⟨sid2, l2x, h5, h6⟩
              · rw [dictGet_insert_self] at h5
                right
                exact ⟨sid, a :: l, hacq, by rw [h5, hl2]⟩
              · rw [dictGet_insert_self] at h5
                cases h5
                right
                refine ⟨sid2, a :: l, hacq, ?_⟩
                rw [h6, hl2, map_session_session]
            · rcases ih2 k with h5 | ⟨sid2, l2x, h5, h6⟩
              · rw [dictGet_insert_ne _ _ _ _ hks] at h5
                exact Or.inl h5
              · rw [dictGet_insert_ne _ _ _ _ hks] at h5
                exact Or.inr ⟨sid2, l2x, h5, h6⟩

theorem C10_upload_frame_witness :
    ([("S1",
      { label := "S1"
        subject := { sex := "m", age := 0, code := "S1", metadata := [] }
        project := some "p9" : Session })] : Dict Session) =
      ([("S1",
        { label := "S1"
          subject := { sex := "m", age := 0, code := "S1", metadata := [] }
          project := none : Session })] : Dict Session).map
        (fun q => (q.1, { q.2 with project := some "p9" })) :=
  (C10_upload_frame (fun _ => { status := 200, reason := "OK", idField := some "i1" })
    [] "http://x" "p9"
    [("S1",
      { label := "S1"
        subject := { sex := "m", age := 0, code := "S1", metadata := [] }
        project := none })]
    [("S1", [{ label := "a", metadata := [("subjectkey", "S1")], session := none }])]
    [("S1",
      { label := "S1"
        subject := { sex := "m", age := 0, code := "S1", metadata := [] }
        project := some "p9" })]
    [("S1", [{ label := "a", metadata := [("subjectkey", "S1")], session := some "i1" }])]
    [postReq [] "http://x" "sessions"
      (.session
        { label := "S1"
          subject := { sex := "m", age := 0, code := "S1", metadata := [] }
          project := some "p9" }),
     postReq [] "http://x" "acquisitions"
      (.acquisition
        { label := "a", metadata := [("subjectkey", "S1")], session := some "i1" })]
    rfl).1

/-- C4: on a successful run of the upload loop, for every subject key `k`
in the sessions mapping the requests issued FOR `k` (session-create POSTs
carrying `k` as `subject.code`, acquisition-create POSTs carrying `k` as
their metadata's `subjectkey`) are exactly: one session-create POST
followed by one acquisition-create POST per recorded acquisition when `k`
has a non-empty acquisition sequence, and NO requests at all otherwise —
so a session is created iff `k` has acquisitions, and every
acquisition-create for `k` comes after its session-create. -/
theorem C4_session_gating (svc : Service) (prm : List (String × String))
    (base pid : String) :
    ∀ (entries : Dict Session) (acqs : Dict (List Acquisition))
      (entries2 : Dict Session) (acqs2 : Dict (List Acquisition))
      (tr : List Request),
      (dictKeys entries).Nodup →
      (∀ q ∈ entries, q.2.subject.code = q.1) →
      (∀ k l, dictGet acqs k = some l →
        ∀ x ∈ l, dictGet x.metadata "subjectkey" = some k) →
      uploadSessions svc prm base pid entries acqs = (entries2, acqs2, tr, .ok ()) →
      ∀ k sess2, (k, sess2) ∈ entries →
        (match dictGet acqs k with
         | some (a :: l) =>
             tr.filter (isForKey base k) =
               postReq prm base "sessions"
                   (.session { sess2 with project := some pid })
                 :: (a :: l).map (fun x => postReq prm base "acquisitions"
                      (.acquisition
                        { x with
                          session :=
                            some ((svc (postReq prm base "sessions"
                              (.session { sess2 with project := some pid }))).idField.getD "") }))
         | _ => tr.filter (isForKey base k) = []) := by
  intro entries
  induction entries with
  | nil =>
    intro acqs entries2 acqs2 tr _ _ _ _ k sess2 hmem
    simp at hmem
  | cons q rest ih =>
    obtain ⟨subj, sess⟩ := q
    intro acqs entries2 acqs2 tr hnodup hcode hmeta h k sess2 hmem
    have hnodupT : (dictKeys rest).Nodup := by
      simp only [dictKeys, List.map_cons, List.nodup_cons] at hnodup
      exact hnodup.2
    have hsubjnotin : subj ∉ dictKeys rest := by
      simp only [dictKeys, List.map_cons, List.nodup_cons] at hnodup
      exact hnodup.1
    have hcodeT : ∀ q ∈ rest, q.2.subject.code = q.1 :=
      fun q hq => hcode q (List.mem_cons_of_mem _ hq)
    simp only [uploadSessions] at h
    cases hacq : dictGet acqs subj with
    | none =>
      simp only [hacq] at h
      rcases hrec : uploadSessions svc prm base pid rest acqs
        with ⟨rest', acqs', e3, res3⟩
      simp only [hrec] at h
      simp only [Prod.mk.injEq] at h
      obtain ⟨-, -, h3, h4⟩ := h
      subst h3
      rcases List.mem_cons.mp hmem with hhead | htail
      · obtain ⟨rfl, rfl⟩ := Prod.mk.injEq .. |>.mp hhead
        simp only [hacq]
        refine List.filter_eq_nil_iff.mpr fun r hr => ?_
        intro hkr
        exact hsubjnotin
          (uploadSessions_scope svc prm base pid rest acqs hcodeT hmeta r
            (by rw [hrec]; exact hr) k hkr)
      · exact ih acqs rest' acqs' e3 hnodupT hcodeT hmeta
          (by rw [hrec, h4]) k sess2 htail
    | some l0 =>
      cases l0 with
      | nil =>
        simp only [hacq] at h
        rcases hrec : uploadSessions svc prm base pid rest acqs
          with ⟨rest', acqs', e3, res3⟩
        simp only [hrec] at h
        simp only [Prod.mk.injEq] at h
        obtain ⟨-, -, h3, h4⟩ := h
        subst h3
        rcases List.mem_cons.mp hmem with hhead | htail
        · obtain ⟨rfl, rfl⟩ := Prod.mk.injEq .. |>.mp hhead
          simp only [hacq]
          refine List.filter_eq_nil_iff.mpr fun r hr => ?_
          intro hkr
          exact hsubjnotin
            (uploadSessions_scope svc prm base pid rest acqs hcodeT hmeta r
              (by rw [hrec]; exact hr) k hkr)
        · exact ih acqs rest' acqs' e3 hnodupT hcodeT hmeta
            (by rw [hrec, h4]) k sess2 htail
      | cons a l =>
        simp only [hacq] at h
        rcases hc : create svc prm "sessions" base
            (.session { sess with project := some pid }) with ⟨e1, res1⟩
        simp only [hc] at h
        cases res1 with
        | error er => simp at h
        | ok sid =>
          rcases hup : uploadAcqs svc prm base sid (a :: l)
            with ⟨l2, e2, res2⟩
          simp only [hup] at h
          cases res2 with
          | error er => simp at h
          | ok u =>
            cases u
            rcases hrec : uploadSessions svc prm base pid rest
                (dictInsert acqs subj l2) with ⟨rest', acqs'', e3, res3⟩
            simp only [hrec] at h
            simp only [Prod.mk.injEq] at h
            obtain ⟨-, -, h3, h4⟩ := h
            subst h3
            obtain ⟨he1, hsid200, hsid⟩ :=
              (create_ok_iff svc prm "sessions" base
                (.session { sess with project := some pid }) e1 sid).mp hc
            subst he1
            obtain ⟨-, he2⟩ := uploadAcqs_ok svc prm base sid (a :: l) l2 e2
              (by rw [hup])
            subst he2
            have hmeta2 : ∀ x ∈ a :: l, dictGet x.metadata "subjectkey" = some subj :=
              fun x hx => hmeta subj (a :: l) hacq x hx
            have hmeta' : ∀ k' l', dictGet (dictInsert acqs subj l2) k' = some l' →
                ∀ x ∈ l', dictGet x.metadata "subjectkey" = some k' := by
              intro k' l' hget x hx
              by_cases hks : k' = subj
              · subst hks
                rw [dictGet_insert_self] at hget
                cases hget
                obtain ⟨hl2, -⟩ := uploadAcqs_ok svc prm base sid (a :: l) _ _
                  (by rw [hup])
                subst hl2
                simp only [List.mem_map] at hx
                obtain ⟨y, hy, hyx⟩ := hx
                subst hyx
                exact hmeta2 y hy
              · rw [dictGet_insert_ne _ _ _ _ hks] at hget
                exact hmeta k' l' hget x hx
            rcases List.mem_cons.mp hmem with hhead | htail
            · obtain ⟨rfl, rfl⟩ := Prod.mk.injEq .. |>.mp hhead
              simp only [hacq]
              rw [List.filter_append, List.filter_append]
              have hf1 : List.filter (isForKey base k)
                  [postReq prm base "sessions"
                    (.session { sess2 with project := some pid })] =
                  [postReq prm base "sessions"
                    (.session { sess2 with project := some pid })] := by
                rw [List.filter_cons]
                have : isForKey base k (postReq prm base "sessions"
                    (.session { sess2 with project := some pid })) = true := by
                  rw [isForKey_session]
                  exact beq_iff_eq.mpr (hcode (k, sess2) (List.mem_cons_self _ _))
                simp [this]
              have hf2 : List.filter (isForKey base k)
                  ((a :: l).map (fun x => postReq prm base "acquisitions"
                    (.acquisition { x with session := some sid }))) =
                  (a :: l).map (fun x => postReq prm base "acquisitions"
                    (.acquisition { x with session := some sid })) := by
                refine List.filter_eq_self.mpr fun r hr => ?_
                simp only [List.mem_map] at hr
                obtain ⟨x, hx, hxr⟩ := hr
                subst hxr
                rw [isForKey_acquisition]
                exact beq_iff_eq.mpr (hmeta2 x hx)
              have hf3 : List.filter (isForKey base k) e3 = [] := by
                refine List.filter_eq_nil_iff.mpr fun r hr => ?_
                intro hkr
                exact hsubjnotin
                  (uploadSessions_scope svc prm base pid rest
                    (dictInsert acqs k l2) hcodeT hmeta' r
                    (by rw [hrec]; exact hr) k hkr)
              rw [hf1, hf2, hf3, hsid]
              simp
            · have hkne : k ≠ subj := by
                intro he
                subst he
                exact hsubjnotin (by
                  simp only [dictKeys, List.mem_map]
                  exact ⟨(k, sess2), htail, rfl⟩)
              have IH2 := ih (dictInsert acqs subj l2) rest' acqs'' e3 hnodupT
                hcodeT hmeta' (by rw [hrec, h4]) k sess2 htail
              rw [dictGet_insert_ne _ _ _ _ hkne] at IH2
              have hf1 : List.filter (isForKey base k)
                  [postReq prm base "sessions"
                    (.session { sess with project := some pid })] = [] := by
                rw [List.filter_cons]
                have hcodehead : sess.subject.code = subj :=
                  hcode (subj, sess) (List.mem_cons_self _ _)
                have : isForKey base k (postReq prm base "sessions"
                    (.session { sess with project := some pid })) = false := by
                  rw [isForKey_session]
                  exact beq_eq_false_iff_ne.mpr (by
                    show ({ sess with project := some pid } : Session).subject.code ≠ k
                    intro he
                    exact hkne (by rw [← he]; exact hcodehead.symm ▸ rfl))
                simp [this]
              have hf2 : List.filter (isForKey base k)
                  ((a :: l).map (fun x => postReq prm base "acquisitions"
                    (.acquisition { x with session := some sid }))) = [] := by
                refine List.filter_eq_nil_iff.mpr fun r hr => ?_
                simp only [List.mem_map] at hr
                obtain ⟨x, hx, hxr⟩ := hr
                subst hxr
                rw [isForKey_acquisition]
                intro hbad
                have h9 : dictGet x.metadata "subjectkey" = some k := by
                  have := eq_of_beq hbad
                  exact this
                rw [hmeta2 x hx] at h9
                exact hkne (Option.some.inj h9).symm
              cases hacqk : dictGet acqs k with
              | none =>
                rw [hacqk] at IH2
                simp only [List.filter_append, hf1, hf2, IH2]
                simp
              | some lk =>
                cases lk with
                | nil =>
                  rw [hacqk] at IH2
                  simp only [List.filter_append, hf1, hf2, IH2]
                  simp
                | cons ak lk2 =>
                  rw [hacqk] at IH2
                  simp only [List.filter_append, hf1, hf2, IH2]
                  simp

theorem C4_session_gating_witness :
    List.filter (isForKey "http://x" "S1")
      [postReq [] "http://x" "sessions"
        (.session
          { label := "S1"
            subject := { sex := "m", age := 0, code := "S1", metadata := [] }
            project := some "p9" }),
       postReq [] "http://x" "acquisitions"
        (.acquisition
          { label := "a", metadata := [("subjectkey", "S1")], session := some "i1" })] =
      [postReq [] "http://x" "sessions"
        (.session
          { label := "S1"
            subject := { sex := "m", age := 0, code := "S1", metadata := [] }
            project := some "p9" }),
       postReq [] "http://x" "acquisitions"
        (.acquisition
          { label := "a", metadata := [("subjectkey", "S1")], session := some "i1" })] :=
  C4_session_gating (fun _ => { status := 200, reason := "OK", idField := some "i1" })
    [] "http://x" "p9"
    [("S1",
      { label := "S1"
        subject := { sex := "m", age := 0, code := "S1", metadata := [] }
        project := none })]
    [("S1", [{ label := "a", metadata := [("subjectkey", "S1")], session := none }])]
    [("S1",
      { label := "S1"
        subject := { sex := "m", age := 0, code := "S1", metadata := [] }
        project := some "p9" })]
    [("S1", [{ label := "a", metadata := [("subjectkey", "S1")], session := some "i1" }])]
    [postReq [] "http://x" "sessions"
      (.session
        { label := "S1"
          subject := { sex := "m", age := 0, code := "S1", metadata := [] }
          project := some "p9" }),
     postReq [] "http://x" "acquisitions"
      (.acquisition
        { label := "a", metadata := [("subjectkey", "S1")], session := some "i1" })]
    (by decide) (by decide)
    (by
      intro k l hget x hx
      simp only [dictGet] at hget
      by_cases hk : "S1" = k
      · rw [if_pos hk] at hget
        cases hget
        simp only [List.mem_singleton] at hx
        subst hx
        rw [← hk]
        decide
      · rw [if_neg hk] at hget
        exact Option.noConfusion hget)
    rfl "S1"
    { label := "S1"
      subject := { sex := "m", age := 0, code := "S1", metadata := [] }
      project := none }
    (by simp)

/-- C9: when the remote service answers every project-create POST with a
non-200 status (e.g. HTTP 500), the whole run fails with an uncaught
exception and the request trace holds no session-create and no
acquisition-create POST: the failure aborts before any later upload step is
reached. -/
theorem C9_abort_on_project_failure (svc : Service) (cfg : Config)
    (h : ∀ r : Request, r.url = cfg.url ++ "/projects" → (svc r).status ≠ 200) :
    isErrorResult (main svc cfg).2 = true
    ∧ (main svc cfg).1.filter
        (fun r => r.url == cfg.url ++ "/sessions" ||
          r.url == cfg.url ++ "/acquisitions") = [] := by
  cases htree : generate_tree cfg.folderpath "ndar" cfg.subjects_file
      cfg.images_file with
  | error e =>
    constructor
    · simp [main, htree, isErrorResult]
    · simp [main, htree]
  | ok t =>
    obtain ⟨proj, sd, ad⟩ := t
    rcases hg : get_or_create_group svc (sessionParams cfg.user) cfg.url "ndar"
      with ⟨t1, res1⟩
    have ht1 : ∀ r ∈ t1,
        r.url = cfg.url ++ "/groups/" ++ "ndar" ∨ r.url = cfg.url ++ "/groups" := by
      have h2 := group_trace_urls svc (sessionParams cfg.user) cfg.url "ndar"
      rw [hg] at h2
      exact h2
    have ht1f : ∀ r ∈ t1,
        (r.url == cfg.url ++ "/sessions" ||
          r.url == cfg.url ++ "/acquisitions") = false := by
      intro r hr
      rcases ht1 r hr with hu | hu
      · rw [hu, strAppend_assoc]
        have e1 : cfg.url ++ "/groups/ndar" ≠ cfg.url ++ "/sessions" :=
          strAppend_right_ne _ (by decide)
        have e2 : cfg.url ++ "/groups/ndar" ≠ cfg.url ++ "/acquisitions" :=
          strAppend_right_ne _ (by decide)
        simp [e1, e2]
      · rw [hu]
        have e1 : cfg.url ++ "/groups" ≠ cfg.url ++ "/sessions" :=
          strAppend_right_ne _ (by decide)
        have e2 : cfg.url ++ "/groups" ≠ cfg.url ++ "/acquisitions" :=
          strAppend_right_ne _ (by decide)
        simp [e1, e2]
    cases res1 with
    | error e =>
      constructor
      · simp [main, htree, hg, isErrorResult]
      · simp only [main, htree, hg]
        refine List.filter_eq_nil_iff.mpr fun r hr => ?_
        simp [ht1f r hr]
    | ok u =>
      cases u
      have hurl : (postReq (sessionParams cfg.user) cfg.url "projects"
          (.project proj)).url = cfg.url ++ "/projects" := by
        simp [postReq, urlProjects]
      have hcreate := create_not200 svc (sessionParams cfg.user) "projects"
        cfg.url (.project proj) (h _ hurl)
      constructor
      · simp [main, htree, hg, hcreate, isErrorResult]
      · simp only [main, htree, hg, hcreate]
        refine List.filter_eq_nil_iff.mpr fun r hr => ?_
        rcases List.mem_append.mp hr with hr | hr
        · simp [ht1f r hr]
        · simp only [List.mem_singleton] at hr
          subst hr
          have e1 : cfg.url ++ "/projects" ≠ cfg.url ++ "/sessions" :=
            strAppend_right_ne _ (by decide)
          have e2 : cfg.url ++ "/projects" ≠ cfg.url ++ "/acquisitions" :=
            strAppend_right_ne _ (by decide)
          simp [hurl, e1, e2]

theorem C9_abort_on_project_failure_witness :
    isErrorResult
      (main
        (fun r =>
          if r.url = "http://x/projects"
            then { status := 500, reason := "Internal Server Error", idField := none }
          else if r.method = .get
            then { status := 404, reason := "Not Found", idField := none }
          else { status := 200, reason := "OK", idField := some "g1" })
        { url := "http://x"
          user := "u"
          folderpath := "/data/import"
          subjects_file :=
            [["subjectkey", "gender", "interview_age"], ["--", "--", "--"],
              ["S1", "M", "24"]]
          images_file :=
            [["subjectkey", "image_file"], ["--", "--"],
              ["S1", "/data/S1/scan_01.nii"]] }).2 = true
    ∧ (main
        (fun r =>
          if r.url = "http://x/projects"
            then { status := 500, reason := "Internal Server Error", idField := none }
          else if r.method = .get
            then { status := 404, reason := "Not Found", idField := none }
          else { status := 200, reason := "OK", idField := some "g1" })
        { url := "http://x"
          user := "u"
          folderpath := "/data/import"
          subjects_file :=
            [["subjectkey", "gender", "interview_age"], ["--", "--", "--"],
              ["S1", "M", "24"]]
          images_file :=
            [["subjectkey", "image_file"], ["--", "--"],
              ["S1", "/data/S1/scan_01.nii"]] }).1.filter
        (fun r => r.url == "http://x" ++ "/sessions" ||
          r.url == "http://x" ++ "/acquisitions") = [] :=
  C9_abort_on_project_failure _ _
    (fun r hr => by
      have h2 : r.url = "http://x/projects" := by
        rw [hr]
        decide
      simp only [h2]
      simp)

/-- C3 counterexample: with the claim's exact inputs — a subjects file of
header plus the single row `S1 M 24`, an images file of header plus the
single row `S1 /data/S1/scan_01.nii` — the run issues only the group GET,
the group-create POST and the project-create POST and prints `p1`: both
single data rows are discarded by `rows.next()`, so the session-create and
acquisition-create POSTs the claim requires never happen. -/
theorem C3_counterexample :
    main mockService cfgStated =
      ([getGroupReq (sessionParams "u") "http://x" "ndar",
        postGroupReq (sessionParams "u") "http://x" "ndar",
        postReq (sessionParams "u") "http://x" "projects"
          (.project { label := "import", group := "ndar" })],
       .ok "p1")
    ∧ (main mockService cfgStated).1.filter
        (fun r => r.url == "http://x" ++ "/sessions" ||
          r.url == "http://x" ++ "/acquisitions") = [] :=
  ⟨rfl, rfl⟩

/-- C3 amended: the same end-to-end scenario with one filler row (the
discarded first data row) inserted after each header performs exactly the
claimed requests in order — one group-create POST for `ndar`, one
project-create POST whose label is the input folder's base name, one
session-create POST with subject code `S1`, sex `m` and age `24 * 2629800`,
one acquisition-create POST with label `scan_01` — and prints the mocked
project id `p1`. -/
theorem C3_end_to_end :
    main mockService cfgFiller =
      ([getGroupReq (sessionParams "u") "http://x" "ndar",
        postGroupReq (sessionParams "u") "http://x" "ndar",
        postReq (sessionParams "u") "http://x" "projects"
          (.project { label := pyBasename "/data/import", group := "ndar" }),
        postReq (sessionParams "u") "http://x" "sessions"
          (.session
            { label := "S1"
              subject :=
                { sex := "m", age := 24 * 2629800, code := "S1"
                  metadata :=
                    [("subjectkey", "S1"), ("gender", "M"),
                      ("interview_age", "24")] }
              project := some "p1" }),
        postReq (sessionParams "u") "http://x" "acquisitions"
          (.acquisition
            { label := "scan_01"
              metadata :=
                [("subjectkey", "S1"), ("image_file", "/data/S1/scan_01.nii")]
              session := some "s1" })],
       .ok "p1") := rfl

end NdarUploader
